import Mathlib

/-!
Verification of the normalization and analytics engine of a financial data
service (FastAPI + Finnhub).  The Python source is embedded shallowly:

* Python floats are modelled by an inductive `PFloat` (a rational, positive
  or negative infinity, or NaN); pure finite values are plain rationals.
* Optional values are `Option`.
* Python's built-in `round(x, n)` (round half to even) is modelled by
  `pyRound` over the rationals.
* The stateful parts (the report-assembly loop of
  `app/api/endpoints/financials.py` and the in-memory cache of
  `app/services/finnhub_services.py`) are modelled by explicit state
  threading.

Each definition carries a reference to the source location it embeds.
-/

namespace FinSvc

/-- Floor of a rational, computable form: `q.num / q.den` with integer
(Euclidean) division, which agrees with `Int.floor` on rationals. -/
def ratFloor (q : ℚ) : ℤ := q.num / q.den

/-- Python's builtin `round` tie-breaking: round half to even
(banker's rounding), producing the nearest integer. -/
def roundHalfToEven (s : ℚ) : ℤ :=
  if s - (ratFloor s : ℚ) = 1 / 2 then
    (if ratFloor s % 2 = 0 then ratFloor s else ratFloor s + 1)
  else ratFloor (s + 1 / 2)

/-- Python's `round(q, nd)`: round to `nd` decimal digits, half to even. -/
def pyRound (nd : ℕ) (q : ℚ) : ℚ := (roundHalfToEven (q * 10 ^ nd) : ℚ) / 10 ^ nd

/-- A Python float: finite value, one of the two infinities produced by
`float("inf")` / `float("-inf")`, or NaN.  (The service's own arithmetic
is modelled exactly over ℚ; the infinities appear only where the source
constructs them explicitly, NaN only as a possible function input.) -/
inductive PFloat where
  | fin (q : ℚ)
  | pinf
  | ninf
  | nan
  deriving DecidableEq, Repr

/-- IEEE-style strict less-than on Python floats: any comparison with NaN
is false. -/
def PFloat.ltb : PFloat → PFloat → Bool
  | .nan, _ => false
  | _, .nan => false
  | .fin a, .fin b => decide (a < b)
  | .fin _, .pinf => true
  | .fin _, .ninf => false
  | .pinf, _ => false
  | .ninf, .ninf => false
  | .ninf, _ => true

/-- IEEE-style less-or-equal on Python floats: any comparison with NaN
is false. -/
def PFloat.leb : PFloat → PFloat → Bool
  | .nan, _ => false
  | _, .nan => false
  | .fin a, .fin b => decide (a ≤ b)
  | .fin _, .pinf => true
  | .fin _, .ninf => false
  | .pinf, .pinf => true
  | .pinf, _ => false
  | .ninf, _ => true

/-- Python's `math.isinf`. -/
def PFloat.isinf : PFloat → Bool
  | .pinf => true
  | .ninf => true
  | _ => false

/-- Python's `math.isnan`. -/
def PFloat.isnan : PFloat → Bool
  | .nan => true
  | _ => false

/-- Embeds `_calculate_growth_rate` (app/api/endpoints/financials.py,
lines 26-35): year-over-year growth in percent; `None` when either operand
is missing, signed infinity (or 0.0) on a zero base, otherwise
`((current - previous) / previous) * 100` rounded to 2 decimal places. -/
def calculate_growth_rate (current_value previous_value : Option ℚ) :
    Option PFloat :=
  match current_value, previous_value with
  | some c, some p =>
    if p = 0 then
      (if 0 < c then some .pinf else if c < 0 then some .ninf
       else some (.fin 0))
    else some (.fin (pyRound 2 ((c - p) / p * 100)))
  | _, _ => none

/-- Embeds the gross-margin computation (app/api/endpoints/financials.py,
lines 199-200): assigned only when gross profit and revenue are both
present and revenue is nonzero; otherwise the field keeps its None
default. -/
def gross_margin_calc (current_gross_profit current_revenue : Option ℚ) :
    Option PFloat :=
  match current_gross_profit, current_revenue with
  | some g, some r => if r ≠ 0 then some (.fin (pyRound 4 (g / r))) else none
  | _, _ => none

/-- Embeds the operating-margin computation (financials.py, lines 203-204):
same shape as the gross margin, operating income over revenue. -/
def operating_margin_calc (current_operating_income current_revenue :
    Option ℚ) : Option PFloat :=
  match current_operating_income, current_revenue with
  | some oi, some r => if r ≠ 0 then some (.fin (pyRound 4 (oi / r))) else none
  | _, _ => none

/-- Embeds the net-profit-margin computation (financials.py, lines 207-208):
income-statement net income over revenue. -/
def net_profit_margin_calc (current_net_income_ic current_revenue :
    Option ℚ) : Option PFloat :=
  match current_net_income_ic, current_revenue with
  | some ni, some r => if r ≠ 0 then some (.fin (pyRound 4 (ni / r))) else none
  | _, _ => none

/-- Embeds the current-ratio computation (financials.py, lines 211-214):
assets over liabilities rounded to 2 places when liabilities is present
and nonzero; positive infinity on the explicit zero-liabilities branch
(which requires assets to be present); None when either operand is
missing (the elif comparison None == 0 is false in Python). -/
def current_ratio_calc
    (current_total_current_assets current_total_current_liabilities :
      Option ℚ) : Option PFloat :=
  match current_total_current_assets, current_total_current_liabilities with
  | some a, some l =>
    if l ≠ 0 then some (.fin (pyRound 2 (a / l))) else some .pinf
  | _, _ => none

/-- Embeds the debt-to-equity computation (financials.py, lines 217-220):
total liabilities over equity rounded to 2 places, positive infinity on
the explicit zero-equity branch. -/
def debt_to_equity_calc
    (current_total_liabilities current_total_equity : Option ℚ) :
    Option PFloat :=
  match current_total_liabilities, current_total_equity with
  | some t, some e =>
    if e ≠ 0 then some (.fin (pyRound 2 (t / e))) else some .pinf
  | _, _ => none

/-- Embeds the net-income block of `_assess_financial_health`
(financials.py, lines 52-54): when present, count the factor and add 1 to
the score if the value is strictly positive (a NaN comparison is false). -/
def healthStepNetIncome (s : ℤ × ℕ) (v : Option PFloat) : ℤ × ℕ :=
  match v with
  | none => s
  | some x => (s.1 + (if PFloat.ltb (.fin 0) x then 1 else 0), s.2 + 1)

/-- Embeds the cash-from-operating-activities block (financials.py,
lines 56-58): same shape as the net-income block. -/
def healthStepCashFromOps (s : ℤ × ℕ) (v : Option PFloat) : ℤ × ℕ :=
  match v with
  | none => s
  | some x => (s.1 + (if PFloat.ltb (.fin 0) x then 1 else 0), s.2 + 1)

/-- Embeds the current-ratio block (financials.py, lines 60-63): usable
only when present, finite and not NaN; then +1 when at least 1.5, -1 when
strictly below 1.0, neutral in between. -/
def healthStepCurrentRat (s : ℤ × ℕ) (v : Option PFloat) : ℤ × ℕ :=
  match v with
  | none => s
  | some x =>
    if x.isinf = false ∧ x.isnan = false then
      (s.1 + (if PFloat.leb (.fin (3 / 2)) x then 1
              else if PFloat.ltb x (.fin 1) then -1 else 0), s.2 + 1)
    else s

/-- Embeds the debt-to-equity block (financials.py, lines 65-68): usable
only when present, finite and not NaN; then +1 when at most 1.0, -1 when
strictly above 2.0, neutral in between. -/
def healthStepDebtToEquity (s : ℤ × ℕ) (v : Option PFloat) : ℤ × ℕ :=
  match v with
  | none => s
  | some x =>
    if x.isinf = false ∧ x.isnan = false then
      (s.1 + (if PFloat.leb x (.fin 1) then 1
              else if PFloat.ltb (.fin 2) x then -1 else 0), s.2 + 1)
    else s

/-- Embeds `_assess_financial_health` (financials.py, lines 37-78): None
when all four inputs are None; otherwise thread (score, factor count)
through the four blocks in source order, return None when no factor was
counted, else the label from the score thresholds (lines 73-78). -/
def assess_financial_health
    (net_income cash_from_operating_activities current_ratio
      debt_to_equity_ratio : Option PFloat) : Option String :=
  if net_income = none ∧ cash_from_operating_activities = none ∧
      current_ratio = none ∧ debt_to_equity_ratio = none then none
  else
    let s := healthStepDebtToEquity
      (healthStepCurrentRat
        (healthStepCashFromOps
          (healthStepNetIncome ((0 : ℤ), (0 : ℕ)) net_income)
          cash_from_operating_activities)
        current_ratio)
      debt_to_equity_ratio
    if s.2 = 0 then none
    else some (if 2 ≤ s.1 then "Strong"
               else if 0 ≤ s.1 then "Stable" else "Concerning")

/-- Score contribution of a strictly-positive check, written from the
claim: +1 for a present value greater than 0, else 0. -/
def specScorePositive (v : Option PFloat) : ℤ :=
  match v with
  | none => 0
  | some x => if PFloat.ltb (.fin 0) x then 1 else 0

/-- Factor-count contribution of net income / cash from operations,
written from the claim: counted whenever non-null. -/
def specCountPresent (v : Option PFloat) : ℕ :=
  match v with
  | none => 0
  | some _ => 1

/-- Usability of a ratio input, written from the claim: non-null, finite
and not NaN. -/
def specRatUsable (v : Option PFloat) : Bool :=
  match v with
  | none => false
  | some x => !x.isinf && !x.isnan

/-- Score contribution of the current ratio, written from the claim:
+1 for at least 1.5, -1 for strictly below 1.0, neutral in between,
0 when unusable. -/
def specScoreCurrentRat (v : Option PFloat) : ℤ :=
  match v with
  | none => 0
  | some x =>
    if x.isinf = false ∧ x.isnan = false then
      (if PFloat.leb (.fin (3 / 2)) x then 1
       else if PFloat.ltb x (.fin 1) then -1 else 0)
    else 0

/-- Score contribution of the debt-to-equity ratio, written from the
claim: +1 for at most 1.0, -1 for strictly above 2.0, neutral in between,
0 when unusable. -/
def specScoreDebtToEquity (v : Option PFloat) : ℤ :=
  match v with
  | none => 0
  | some x =>
    if x.isinf = false ∧ x.isnan = false then
      (if PFloat.leb x (.fin 1) then 1
       else if PFloat.ltb (.fin 2) x then -1 else 0)
    else 0

/-- Number of usable factors, written from the claim. -/
def healthFactorCount (ni cfo cr de : Option PFloat) : ℕ :=
  specCountPresent ni + specCountPresent cfo +
    (if specRatUsable cr then 1 else 0) + (if specRatUsable de then 1 else 0)

/-- Additive health score, written from the claim: sum of the four
independent factor contributions. -/
def healthScore (ni cfo cr de : Option PFloat) : ℤ :=
  specScorePositive ni + specScorePositive cfo +
    specScoreCurrentRat cr + specScoreDebtToEquity de

/-- Embeds `_assess_valuation` (app/api/endpoints/metrics.py, lines
10-20): simple qualitative valuation from the price/earnings ratio; the
trailing return None of the source is unreachable over a total order but
is kept. -/
def assess_valuation : Option ℚ → Option String
  | none => none
  | some pe_ratio =>
    if pe_ratio < 15 then some "Potentially Undervalued"
    else if 15 ≤ pe_ratio ∧ pe_ratio ≤ 25 then some "Fairly Valued"
    else if 25 < pe_ratio then some "Potentially Overvalued"
    else none

/-- Embeds `_assess_profitability` (metrics.py, lines 22-35): qualitative
profitability from the net profit margin taken as a decimal fraction. -/
def assess_profitability : Option ℚ → Option String
  | none => none
  | some net_profit_margin =>
    if 0.20 ≤ net_profit_margin then some "High Profitability"
    else if 0.10 ≤ net_profit_margin ∧ net_profit_margin < 0.20 then
      some "Moderate Profitability"
    else if net_profit_margin < 0.10 ∧ 0 ≤ net_profit_margin then
      some "Low Profitability"
    else if net_profit_margin < 0 then some "Unprofitable"
    else none

/-- Embeds `_assess_liquidity` (metrics.py, lines 37-47): qualitative
liquidity from the current ratio. -/
def assess_liquidity : Option ℚ → Option String
  | none => none
  | some current_ratio =>
    if 2 ≤ current_ratio then some "Strong Liquidity"
    else if 1 ≤ current_ratio ∧ current_ratio < 2 then
      some "Adequate Liquidity"
    else if current_ratio < 1 then some "Weak Liquidity"
    else none

/-- A raw concept value as it may arrive from the upstream payload: a
number, a string, or missing (Python None).  `find_concept_value` guards
with isinstance(value, (int, float)). -/
inductive RawVal where
  | num (q : ℚ)
  | str (s : String)
  | null
  deriving DecidableEq, Repr

/-- Embeds `ReportItem` (app/schemas/finnhub_schemas.py, lines 20-24). -/
structure ReportItem where
  concept : String
  unit : String
  label : String
  value : RawVal
  deriving DecidableEq, Repr

/-- Embeds `FinancialItemOut` (app/schemas/app_schemas.py, lines 25-28). -/
structure FinancialItemOut where
  label : String
  value : Option ℚ
  unit : Option String
  deriving DecidableEq, Repr

/-- Embeds the value coercion inside `find_concept_value` (financials.py,
line 22): `item.value if isinstance(item.value, (int, float)) else None`. -/
def coerceItemValue : RawVal → Option ℚ
  | .num q => some q
  | _ => none

/-- The scanning loop of `find_concept_value` (financials.py, lines
19-23): first item in document order whose concept matches. -/
def find_concept_value_items : List ReportItem → String → Option FinancialItemOut
  | [], _ => none
  | item :: rest, concept =>
    if item.concept = concept then
      some ⟨item.label, coerceItemValue item.value, some item.unit⟩
    else find_concept_value_items rest concept

/-- Embeds `find_concept_value` (financials.py, lines 16-24): None when
the item list is absent (or empty, which Python treats as falsy with the
same result). -/
def find_concept_value (report_items : Option (List ReportItem))
    (concept : String) : Option FinancialItemOut :=
  match report_items with
  | none => none
  | some items => find_concept_value_items items concept

/-- Embeds the caller-side candidate fallback (financials.py, lines
129-131: try us-gaap_Revenues, and only if that returned None try
us-gaap_SalesRevenueNet), generalized to an ordered candidate list. -/
def resolveConcepts (report_items : Option (List ReportItem)) :
    List String → Option FinancialItemOut
  | [] => none
  | c :: cs =>
    match find_concept_value report_items c with
    | some r => some r
    | none => resolveConcepts report_items cs

/-- Lexicographic less-or-equal on character sequences, Python's string
comparison by code points (the source compares fixed-width ISO date
strings). -/
def strLe : List Char → List Char → Bool
  | [], _ => true
  | _ :: _, [] => false
  | a :: s, b :: t => if a < b then true else if b < a then false else strLe s t

/-- One insertion step of a stable descending sort by a string key: the
new element goes in front of the first element whose key is at most its
own, so it lands after all strictly greater keys and before equal ones. -/
def insertDescBy (key : α → List Char) (a : α) : List α → List α
  | [] => [a]
  | b :: l =>
    if strLe (key b) (key a) then a :: b :: l else b :: insertDescBy key a l

/-- Stable descending sort by a string key; embeds Python's
sorted(..., key=..., reverse=True), which is a stable sort read in
descending key order. -/
def sortDescBy (key : α → List Char) : List α → List α
  | [] => []
  | a :: l => insertDescBy key a (sortDescBy key l)

/-- Embeds `FinancialReportDetails` (finnhub_schemas.py, lines 33-40):
the three optional statement sections. -/
structure FinancialReportDetails where
  bs : Option (List ReportItem)
  ic : Option (List ReportItem)
  cf : Option (List ReportItem)
  deriving DecidableEq, Repr

/-- Embeds `FinancialFilingData` (finnhub_schemas.py, lines 42-53).  All
date fields are required strings in the schema, so a "missing" end date
can only be the empty string (the only falsy str). -/
structure FinancialFilingData where
  accessNumber : String
  symbol : String
  cik : String
  year : ℤ
  quarter : ℤ
  form : String
  startDate : String
  endDate : String
  filedDate : String
  acceptedDate : String
  report : FinancialReportDetails
  deriving DecidableEq, Repr

/-- Truthiness of the report submodel in the filter of financials.py line
96: a required Pydantic BaseModel instance defines no bool conversion and
is always truthy. -/
def reportTruthy (_ : FinancialReportDetails) : Bool := true

/-- The filter predicate of financials.py line 96:
quarter == 0 and form == "10-K" and f.report. -/
def keep_annual (f : FinancialFilingData) : Bool :=
  f.quarter == 0 && f.form == "10-K" && reportTruthy f.report

/-- The sort key of financials.py line 97:
x.endDate if x.endDate else "" (the empty string is falsy), compared as a
character sequence. -/
def filing_sort_key (f : FinancialFilingData) : List Char :=
  (if f.endDate ≠ "" then f.endDate else "").data

/-- Embeds the annual-filing selection (financials.py, lines 95-99):
filter to annual 10-K records, then sort by end date descending with
Python's stable sorted(..., reverse=True). -/
def annual_filings (data : List FinancialFilingData) :
    List FinancialFilingData :=
  sortDescBy filing_sort_key (data.filter keep_annual)

/-- Embeds the income-statement revenue extraction of the report loop
(financials.py, lines 117 and 128-133): None when the ic section is
absent or empty (both falsy in the line-128 guard), else the value of
the resolved revenue item (preferred tag us-gaap_Revenues, then
us-gaap_SalesRevenueNet), None when no item matched. -/
def extract_revenue (f : FinancialFilingData) : Option ℚ :=
  match f.report.ic with
  | none => none
  | some [] => none
  | some items =>
    match resolveConcepts (some items)
        ["us-gaap_Revenues", "us-gaap_SalesRevenueNet"] with
    | some item => item.value
    | none => none

/-- Embeds the income-statement net-income extraction (financials.py,
lines 118, 128 and 146-148). -/
def extract_net_income_ic (f : FinancialFilingData) : Option ℚ :=
  match f.report.ic with
  | none => none
  | some [] => none
  | some items =>
    match find_concept_value (some items) "us-gaap_NetIncomeLoss" with
    | some item => item.value
    | none => none

/-- Embeds the growth-threading of the report-assembly loop
(financials.py, lines 107, 109, 225-226 and 260-261): iterate the
selected filings newest-first carrying the previous filing's revenue and
net income (a defaultdict starting at None), emit the two growth fields
for each filing, then overwrite the carried state with the current
filing's values. -/
def growth_loop : List FinancialFilingData → Option ℚ → Option ℚ →
    List (Option PFloat × Option PFloat)
  | [], _, _ => []
  | f :: rest, prevRev, prevNI =>
    (calculate_growth_rate (extract_revenue f) prevRev,
     calculate_growth_rate (extract_net_income_ic f) prevNI) ::
      growth_loop rest (extract_revenue f) (extract_net_income_ic f)

/-- The growth fields of the assembled report: the loop started from the
None-initialized carried state (financials.py, line 107). -/
def report_growth_pairs (filings : List FinancialFilingData) :
    List (Option PFloat × Option PFloat) :=
  growth_loop filings none none

/-- Embeds CACHE_EXPIRATION_SECONDS (app/services/finnhub_services.py,
line 14). -/
def CACHE_EXPIRATION_SECONDS : ℚ := 300

/-- Embeds one value of the module-level cache dict (finnhub_services.py,
line 13): the parsed payload and the wall-clock instant it was stored
(seconds, as a rational). -/
structure CacheEntry (V : Type) where
  data : V
  timestamp : ℚ
  deriving DecidableEq, Repr

/-- Python dict membership plus subscript, modelled on an association
list whose keys are unique. -/
def cacheLookup {V : Type} (cache : List (String × CacheEntry V))
    (key : String) : Option (CacheEntry V) :=
  match cache with
  | [] => none
  | (k, e) :: rest => if k = key then some e else cacheLookup rest key

/-- Python dict assignment: overwrite the existing key or append. -/
def cacheInsert {V : Type} (cache : List (String × CacheEntry V))
    (key : String) (e : CacheEntry V) : List (String × CacheEntry V) :=
  match cache with
  | [] => [(key, e)]
  | (k, e0) :: rest =>
    if k = key then (k, e) :: rest else (k, e0) :: cacheInsert rest key e

/-- Outcome of one invocation of the upstream fetch
(finnhub_services.py, lines 51-63 and the analogous blocks of the other
two services): a parsed success, the handled invalid-symbol 400 (the
service returns None), or any other HTTP/network error (re-raised). -/
inductive FetchOutcome (V : Type) where
  | success (v : V)
  | invalidSymbol
  | raised
  deriving DecidableEq, Repr

/-- What the service call does: return a value (possibly None) or let an
exception propagate. -/
inductive ServiceReturn (V : Type) where
  | returns (v : Option V)
  | raises
  deriving DecidableEq, Repr

/-- Result of one service call: its return, the cache state afterwards,
and whether the upstream fetch was invoked. -/
structure FetchStep (V : Type) where
  result : ServiceReturn V
  cache : List (String × CacheEntry V)
  fetchInvoked : Bool
  deriving DecidableEq, Repr

/-- The fetch branch shared by the three services (finnhub_services.py,
lines 50-63, 80-92, 110-122): invoke the fetch; on success store the
parsed value under the key with the current timestamp and return it; on
the handled invalid-symbol 400 return None without writing; on any other
error re-raise without writing. -/
def getOrFetchMiss {V : Type} (cache : List (String × CacheEntry V))
    (now : ℚ) (key : String) (fetch : FetchOutcome V) : FetchStep V :=
  match fetch with
  | .success v => ⟨.returns (some v), cacheInsert cache key ⟨v, now⟩, true⟩
  | .invalidSymbol => ⟨.returns none, cache, true⟩
  | .raised => ⟨.raises, cache, true⟩

/-- Embeds the get-or-fetch shape shared by get_company_profile,
get_basic_financials and get_financials_reported (finnhub_services.py,
lines 33-122): if a cache entry for the key exists and its age is
strictly below the TTL, return its stored data without fetching;
otherwise (absent or expired) run the fetch branch. -/
def getOrFetch {V : Type} (cache : List (String × CacheEntry V))
    (now : ℚ) (key : String) (fetch : FetchOutcome V) : FetchStep V :=
  match cacheLookup cache key with
  | some entry =>
    if now - entry.timestamp < CACHE_EXPIRATION_SECONDS then
      ⟨.returns (some entry.data), cache, false⟩
    else getOrFetchMiss cache now key fetch
  | none => getOrFetchMiss cache now key fetch

/-- Embeds `FinnhubMetricData` (finnhub_schemas.py, lines 61-101).  The
schema declares quickRatioAnnual; quickRatioQuarterly is an undeclared
field reaching the model through extra = "allow" and is read by the
handler, so it is carried here as well. -/
structure FinnhubMetricData where
  peTTM : Option ℚ
  psTTM : Option ℚ
  pb : Option ℚ
  epsTTM : Option ℚ
  roeTTM : Option ℚ
  roaTTM : Option ℚ
  netProfitMarginTTM : Option ℚ
  grossMarginTTM : Option ℚ
  operatingMarginTTM : Option ℚ
  currentRatioAnnual : Option ℚ
  quickRatioAnnual : Option ℚ
  quickRatioQuarterly : Option ℚ
  totalDebt_totalEquityAnnual : Option ℚ
  revenueGrowthTTMYoy : Option ℚ
  epsGrowthTTMYoy : Option ℚ
  dividendPerShareTTM : Option ℚ
  currentDividendYieldTTM : Option ℚ
  beta : Option ℚ
  marketCapitalization : Option ℚ
  fifty_two_week_high : Option ℚ
  fifty_two_week_low : Option ℚ
  cashFlowPerShareTTM : Option ℚ
  deriving DecidableEq, Repr

/-- Embeds `KeyMetricsOut` (app/schemas/app_schemas.py, lines 109-150):
the declared output fields, every optional field defaulting to None. -/
structure KeyMetricsOut where
  symbol : String
  pe_ratio_ttm : Option ℚ
  ps_ratio_ttm : Option ℚ
  pb_ratio : Option ℚ
  market_capitalization : Option ℚ
  eps_ttm : Option ℚ
  roe_ttm : Option ℚ
  roa_ttm : Option ℚ
  net_profit_margin_ttm : Option ℚ
  gross_margin_ttm : Option ℚ
  operating_margin_ttm : Option ℚ
  current_ratio_annual : Option ℚ
  quick_ratio_annual : Option ℚ
  total_debt_to_equity_annual : Option ℚ
  revenue_growth_ttm_yoy : Option ℚ
  eps_growth_ttm_yoy : Option ℚ
  dividend_per_share_ttm : Option ℚ
  current_dividend_yield_ttm : Option ℚ
  beta : Option ℚ
  fifty_two_week_high : Option ℚ
  fifty_two_week_low : Option ℚ
  cash_flow_per_share_ttm : Option ℚ
  valuation_status : Option String
  profitability_assessment : Option String
  liquidity_assessment : Option String
  deriving DecidableEq, Repr

/-- The float-valued keyword arguments the handler passes to the
KeyMetricsOut constructor (metrics.py, lines 65-96), keyed by the names
it uses.  The two growth values are converted to percentages and passed
under the names revenue_growth_ttm_yoy_percent and
eps_growth_ttm_yoy_percent (lines 85-86). -/
def key_metrics_float_kwargs (m : FinnhubMetricData) :
    List (String × Option ℚ) :=
  [("pe_ratio_ttm", m.peTTM),
   ("ps_ratio_ttm", m.psTTM),
   ("pb_ratio", m.pb),
   ("market_capitalization", m.marketCapitalization),
   ("eps_ttm", m.epsTTM),
   ("roe_ttm", m.roeTTM),
   ("roa_ttm", m.roaTTM),
   ("net_profit_margin_ttm", m.netProfitMarginTTM),
   ("gross_margin_ttm", m.grossMarginTTM),
   ("operating_margin_ttm", m.operatingMarginTTM),
   ("current_ratio_annual", m.currentRatioAnnual),
   ("quick_ratio_annual", m.quickRatioQuarterly),
   ("total_debt_to_equity_annual", m.totalDebt_totalEquityAnnual),
   ("revenue_growth_ttm_yoy_percent",
     m.revenueGrowthTTMYoy.map (fun x => x * 100)),
   ("eps_growth_ttm_yoy_percent", m.epsGrowthTTMYoy.map (fun x => x * 100)),
   ("dividend_per_share_ttm", m.dividendPerShareTTM),
   ("current_dividend_yield_ttm", m.currentDividendYieldTTM),
   ("beta", m.beta),
   ("fifty_two_week_high", m.fifty_two_week_high),
   ("fifty_two_week_low", m.fifty_two_week_low),
   ("cash_flow_per_share_ttm", m.cashFlowPerShareTTM)]

/-- Pydantic constructor semantics for a declared optional float field:
the value passed under the field's own name when present, else the None
default; keyword arguments whose names match no declared field are
ignored (the model declares no extra policy, so the default applies). -/
def pydanticFloatField (kwargs : List (String × Option ℚ))
    (field : String) : Option ℚ :=
  match kwargs.lookup field with
  | some v => v
  | none => none

/-- Embeds the KeyMetricsOut construction of the key-metrics handler
(metrics.py, lines 65-101): every declared float field is populated from
the handler's keyword arguments by name, the symbol and the three
qualitative assessments directly. -/
def build_key_metrics_out (symbol : String) (m : FinnhubMetricData) :
    KeyMetricsOut :=
  let kw := key_metrics_float_kwargs m
  { symbol := symbol
    pe_ratio_ttm := pydanticFloatField kw "pe_ratio_ttm"
    ps_ratio_ttm := pydanticFloatField kw "ps_ratio_ttm"
    pb_ratio := pydanticFloatField kw "pb_ratio"
    market_capitalization := pydanticFloatField kw "market_capitalization"
    eps_ttm := pydanticFloatField kw "eps_ttm"
    roe_ttm := pydanticFloatField kw "roe_ttm"
    roa_ttm := pydanticFloatField kw "roa_ttm"
    net_profit_margin_ttm := pydanticFloatField kw "net_profit_margin_ttm"
    gross_margin_ttm := pydanticFloatField kw "gross_margin_ttm"
    operating_margin_ttm := pydanticFloatField kw "operating_margin_ttm"
    current_ratio_annual := pydanticFloatField kw "current_ratio_annual"
    quick_ratio_annual := pydanticFloatField kw "quick_ratio_annual"
    total_debt_to_equity_annual :=
      pydanticFloatField kw "total_debt_to_equity_annual"
    revenue_growth_ttm_yoy := pydanticFloatField kw "revenue_growth_ttm_yoy"
    eps_growth_ttm_yoy := pydanticFloatField kw "eps_growth_ttm_yoy"
    dividend_per_share_ttm := pydanticFloatField kw "dividend_per_share_ttm"
    current_dividend_yield_ttm :=
      pydanticFloatField kw "current_dividend_yield_ttm"
    beta := pydanticFloatField kw "beta"
    fifty_two_week_high := pydanticFloatField kw "fifty_two_week_high"
    fifty_two_week_low := pydanticFloatField kw "fifty_two_week_low"
    cash_flow_per_share_ttm := pydanticFloatField kw "cash_flow_per_share_ttm"
    valuation_status := assess_valuation m.peTTM
    profitability_assessment := assess_profitability m.netProfitMarginTTM
    liquidity_assessment := assess_liquidity m.currentRatioAnnual }

/-- Embeds `FinnhubCompanyProfile2` (finnhub_schemas.py, lines 5-17). -/
structure FinnhubCompanyProfile2 where
  country : String
  currency : String
  exchange : String
  ipo : String
  marketCapitalization : ℚ
  name : String
  phone : Option String
  shareOutstanding : ℚ
  ticker : String
  weburl : Option String
  logo : Option String
  finnhubIndustry : Option String
  deriving DecidableEq, Repr

/-- Embeds `CompanyProfileOut` (app_schemas.py, lines 8-19). -/
structure CompanyProfileOut where
  symbol : String
  name : String
  exchange : String
  industry : Option String
  website : Option String
  market_capitalization : ℚ
  shares_outstanding : ℚ
  country : Option String
  currency : Option String
  ipo_date : Option String
  logo_url : Option String
  deriving DecidableEq, Repr

/-- What a request handler produces: a value, a deliberately raised
HTTPException with its status code, or an unhandled Python exception
escaping the handler (an internal server error). -/
inductive EndpointResult (α : Type) where
  | ok (value : α)
  | httpError (status : ℕ)
  | pythonError (exception : String)
  deriving DecidableEq, Repr

/-- Embeds `FinnhubFinancialsReport` (finnhub_schemas.py, lines 55-58). -/
structure FinnhubFinancialsReport where
  cik : String
  data : List FinancialFilingData
  symbol : String
  deriving DecidableEq, Repr

/-- Embeds `get_company_profile_endpoint` (app/api/endpoints/company.py,
lines 8-32) as a function of the already-fetched service value: the
handler has no None guard and line 19 reads finnhub_data.ticker, so a
None service result (the invalid-symbol case) raises an unhandled
AttributeError instead of a deliberate HTTP error. -/
def get_company_profile_endpoint
    (finnhub_data : Option FinnhubCompanyProfile2) :
    EndpointResult CompanyProfileOut :=
  match finnhub_data with
  | none => .pythonError "AttributeError"
  | some d =>
    .ok { symbol := d.ticker
          name := d.name
          exchange := d.exchange
          industry := d.finnhubIndustry
          website := d.weburl
          market_capitalization := d.marketCapitalization
          shares_outstanding := d.shareOutstanding
          country := some d.country
          currency := some d.currency
          ipo_date := some d.ipo
          logo_url := d.logo }

/-- Embeds `FinnhubBasicFinancials` (finnhub_schemas.py, lines 105-109);
the untyped series payload is not modelled. -/
structure FinnhubBasicFinancials where
  metric : Option FinnhubMetricData
  metricType : String
  symbol : Option String
  deriving DecidableEq, Repr

/-- Embeds `get_company_metrics_endpoint` (metrics.py, lines 49-103) as a
function of the already-fetched service value: a None result or a None
metric bundle raises HTTPException 404 (lines 57-58); otherwise the
output model is built (a None upstream symbol would fail the required
str field at validation). -/
def get_company_metrics_endpoint
    (finnhub_data : Option FinnhubBasicFinancials) :
    EndpointResult KeyMetricsOut :=
  match finnhub_data with
  | none => .httpError 404
  | some fd =>
    match fd.metric with
    | none => .httpError 404
    | some m =>
      match fd.symbol with
      | none => .pythonError "ValidationError"
      | some s => .ok (build_key_metrics_out s m)

/-- Embeds the guard-and-select prefix of
`get_company_financials_endpoint` (financials.py, lines 87-109 and the
growth threading of the loop): a None result or an empty data list
raises HTTPException 404 (lines 89-90), an empty post-filter selection
raises HTTPException 404 (lines 101-102), otherwise the selected
filings' growth pairs are produced. -/
def get_company_financials_endpoint
    (finnhub_data : Option FinnhubFinancialsReport) :
    EndpointResult (List (Option PFloat × Option PFloat)) :=
  match finnhub_data with
  | none => .httpError 404
  | some report =>
    if report.data.isEmpty then .httpError 404
    else
      let annual := annual_filings report.data
      if annual.isEmpty then .httpError 404
      else .ok (report_growth_pairs annual)

/-- Sample filing constructor for concrete evaluations. -/
def mkFiling (quarter : ℤ) (form endDate : String)
    (ic : Option (List ReportItem)) : FinancialFilingData :=
  { accessNumber := "acc", symbol := "SYM", cik := "1", year := 2024,
    quarter := quarter, form := form, startDate := "s", endDate := endDate,
    filedDate := "fd", acceptedDate := "ad",
    report := { bs := none, ic := ic, cf := none } }

/-- A quarterly filing, filtered out by the annual selection. -/
def sampleQuarterly : FinancialFilingData := mkFiling 1 "10-Q" "2024-06-30" none

/-- An annual filing for fiscal 2023. -/
def sampleAnnual23 : FinancialFilingData := mkFiling 0 "10-K" "2023-12-31" none

/-- An annual filing with an empty (missing) end date. -/
def sampleAnnualNoDate : FinancialFilingData := mkFiling 0 "10-K" "" none

/-- An annual filing for fiscal 2024. -/
def sampleAnnual24 : FinancialFilingData := mkFiling 0 "10-K" "2024-12-31" none

/-- A small mixed upstream sequence. -/
def sampleFilings : List FinancialFilingData :=
  [sampleQuarterly, sampleAnnual23, sampleAnnualNoDate, sampleAnnual24]

/-- Newest sample filing with statement items: revenue 200 (under the
preferred tag), net income 50. -/
def sampleGrowthNew : FinancialFilingData :=
  mkFiling 0 "10-K" "2024-12-31"
    (some [⟨"us-gaap_Revenues", "usd", "Revenues", .num 200⟩,
           ⟨"us-gaap_NetIncomeLoss", "usd", "Net income", .num 50⟩])

/-- Older sample filing: revenue 100 (under the legacy tag only), net
income 50. -/
def sampleGrowthOld : FinancialFilingData :=
  mkFiling 0 "10-K" "2023-12-31"
    (some [⟨"us-gaap_SalesRevenueNet", "usd", "Net sales", .num 100⟩,
           ⟨"us-gaap_NetIncomeLoss", "usd", "Net income", .num 50⟩])

/-- Witness for C7 on a concrete two-filing report: the newest filing's
growth pair is null, the older filing's revenue growth is
((100 - 200) / 200) * 100 = -50 percent and its net-income growth is 0
percent. -/

theorem ratFloor_eq_floor (q : ℚ) : ratFloor q = ⌊q⌋ := Rat.floor_def.symm

/-- C1 counterexample: the claim asserts every one of the five ratios is
positive infinity when its denominator is exactly zero and its numerator
is non-null, but the gross margin of (gross profit 5, revenue 0) is None,
not positive infinity: the margin branches have no zero-denominator
infinity case. -/
theorem c1_counterexample :
    gross_margin_calc (some 5) (some 0) ≠ some PFloat.pinf ∧
    gross_margin_calc (some 5) (some 0) = none := by
  constructor <;> simp [gross_margin_calc]

/-- C1 amended: each ratio is null if either operand is null; the three
margins are additionally null when revenue is exactly zero, and otherwise
equal the quotient rounded to 4 decimal places; current ratio and
debt-to-equity are positive infinity when the denominator is exactly zero
and the numerator non-null (regardless of the numerator's sign), and
otherwise equal the quotient rounded to 2 decimal places. -/
theorem c1_amended_ratios :
    (∀ r, gross_margin_calc none r = none) ∧
    (∀ g, gross_margin_calc g none = none) ∧
    (∀ r, operating_margin_calc none r = none) ∧
    (∀ oi, operating_margin_calc oi none = none) ∧
    (∀ r, net_profit_margin_calc none r = none) ∧
    (∀ ni, net_profit_margin_calc ni none = none) ∧
    (∀ l, current_ratio_calc none l = none) ∧
    (∀ a, current_ratio_calc a none = none) ∧
    (∀ e, debt_to_equity_calc none e = none) ∧
    (∀ t, debt_to_equity_calc t none = none) ∧
    (∀ g : ℚ, gross_margin_calc (some g) (some 0) = none) ∧
    (∀ oi : ℚ, operating_margin_calc (some oi) (some 0) = none) ∧
    (∀ ni : ℚ, net_profit_margin_calc (some ni) (some 0) = none) ∧
    (∀ g r : ℚ, r ≠ 0 →
      gross_margin_calc (some g) (some r) = some (.fin (pyRound 4 (g / r)))) ∧
    (∀ oi r : ℚ, r ≠ 0 → operating_margin_calc (some oi) (some r) =
      some (.fin (pyRound 4 (oi / r)))) ∧
    (∀ ni r : ℚ, r ≠ 0 → net_profit_margin_calc (some ni) (some r) =
      some (.fin (pyRound 4 (ni / r)))) ∧
    (∀ a : ℚ, current_ratio_calc (some a) (some 0) = some .pinf) ∧
    (∀ a l : ℚ, l ≠ 0 → current_ratio_calc (some a) (some l) =
      some (.fin (pyRound 2 (a / l)))) ∧
    (∀ t : ℚ, debt_to_equity_calc (some t) (some 0) = some .pinf) ∧
    (∀ t e : ℚ, e ≠ 0 → debt_to_equity_calc (some t) (some e) =
      some (.fin (pyRound 2 (t / e)))) := by
  refine ⟨fun r => rfl, fun g => by cases g <;> rfl,
    fun r => rfl, fun oi => by cases oi <;> rfl,
    fun r => rfl, fun ni => by cases ni <;> rfl,
    fun l => rfl, fun a => by cases a <;> rfl,
    fun e => rfl, fun t => by cases t <;> rfl,
    fun g => by simp [gross_margin_calc],
    fun oi => by simp [operating_margin_calc],
    fun ni => by simp [net_profit_margin_calc],
    fun g r hr => by simp [gross_margin_calc, hr],
    fun oi r hr => by simp [operating_margin_calc, hr],
    fun ni r hr => by simp [net_profit_margin_calc, hr],
    fun a => by simp [current_ratio_calc],
    fun a l hl => by simp [current_ratio_calc, hl],
    fun t => by simp [debt_to_equity_calc],
    fun t e he => by simp [debt_to_equity_calc, he]⟩

/-- Witness for the amended C1 at concrete inputs, including the spec's
own test vector (current ratio with denominator 0 and numerator 100 is
+inf) and a negative numerator over a zero denominator. -/
theorem c1_amended_ratios_witness :
    current_ratio_calc (some 100) (some 0) = some .pinf ∧
    current_ratio_calc (some (-7)) (some 0) = some .pinf ∧
    gross_margin_calc (some 1) (some 4) = some (.fin (1 / 4)) ∧
    debt_to_equity_calc (some 3) (some 2) = some (.fin (3 / 2)) := by
  refine ⟨c1_amended_ratios.2.2.2.2.2.2.2.2.2.2.2.2.2.2.2.2.1 100,
    c1_amended_ratios.2.2.2.2.2.2.2.2.2.2.2.2.2.2.2.2.1 (-7), ?_, ?_⟩
  · rw [c1_amended_ratios.2.2.2.2.2.2.2.2.2.2.2.2.2.1 1 4 (by norm_num)]
    norm_num [pyRound, roundHalfToEven, ratFloor_eq_floor]
  · rw [c1_amended_ratios.2.2.2.2.2.2.2.2.2.2.2.2.2.2.2.2.2.2.2 3 2
      (by norm_num)]
    norm_num [pyRound, roundHalfToEven, ratFloor_eq_floor]

/-- C2: the year-over-year growth function returns null if either operand
is null; positive infinity if previous == 0 and current > 0; negative
infinity if previous == 0 and current < 0; 0.0 if previous == 0 and
current == 0; and otherwise ((current - previous) / previous) * 100
rounded to 2 decimal places. -/
theorem c2_growth_rate :
    (∀ p, calculate_growth_rate none p = none) ∧
    (∀ c, calculate_growth_rate c none = none) ∧
    (∀ c : ℚ, 0 < c → calculate_growth_rate (some c) (some 0) = some .pinf) ∧
    (∀ c : ℚ, c < 0 → calculate_growth_rate (some c) (some 0) = some .ninf) ∧
    (calculate_growth_rate (some 0) (some 0) = some (.fin 0)) ∧
    (∀ c p : ℚ, p ≠ 0 → calculate_growth_rate (some c) (some p) =
      some (.fin (pyRound 2 ((c - p) / p * 100)))) := by
  refine ⟨fun p => rfl, fun c => ?_, fun c hc => ?_, fun c hc => ?_, ?_,
    fun c p hp => ?_⟩
  · cases c <;> rfl
  · simp [calculate_growth_rate, hc]
  · simp [calculate_growth_rate, hc, not_lt.mpr hc.le, hc.not_lt]
  · simp [calculate_growth_rate]
  · simp [calculate_growth_rate, hp]

/-- Witness for C2 at the concrete inputs used by the spec's own test
vector: growth(120, 0) = +inf, growth(-50, 0) = -inf,
growth(110, 100) = 10.0. -/
theorem c2_growth_rate_witness :
    calculate_growth_rate (some 120) (some 0) = some .pinf ∧
    calculate_growth_rate (some (-50)) (some 0) = some .ninf ∧
    calculate_growth_rate (some 110) (some 100) = some (.fin 10) := by
  refine ⟨c2_growth_rate.2.2.1 120 (by norm_num),
    c2_growth_rate.2.2.2.1 (-50) (by norm_num), ?_⟩
  rw [c2_growth_rate.2.2.2.2.2 110 100 (by norm_num)]
  norm_num [pyRound, roundHalfToEven, ratFloor_eq_floor]

/-- Embeds the net-income block of `_assess_financial_health`
(financials.py, lines 52-54): when present, count the factor and add 1 to
the score if the value is strictly positive (a NaN comparison is false). -/

theorem healthStepNetIncome_eq (s : ℤ × ℕ) (v : Option PFloat) :
    healthStepNetIncome s v = (s.1 + specScorePositive v, s.2 + specCountPresent v) := by
  cases v <;> simp [healthStepNetIncome, specScorePositive, specCountPresent]

theorem healthStepCashFromOps_eq (s : ℤ × ℕ) (v : Option PFloat) :
    healthStepCashFromOps s v = (s.1 + specScorePositive v, s.2 + specCountPresent v) := by
  cases v <;> simp [healthStepCashFromOps, specScorePositive, specCountPresent]

theorem healthStepCurrentRat_eq (s : ℤ × ℕ) (v : Option PFloat) :
    healthStepCurrentRat s v =
      (s.1 + specScoreCurrentRat v, s.2 + (if specRatUsable v then 1 else 0)) := by
  cases v with
  | none => simp [healthStepCurrentRat, specScoreCurrentRat, specRatUsable]
  | some x =>
    by_cases h : x.isinf = false ∧ x.isnan = false <;>
      simp [healthStepCurrentRat, specScoreCurrentRat, specRatUsable, h]

theorem healthStepDebtToEquity_eq (s : ℤ × ℕ) (v : Option PFloat) :
    healthStepDebtToEquity s v =
      (s.1 + specScoreDebtToEquity v, s.2 + (if specRatUsable v then 1 else 0)) := by
  cases v with
  | none => simp [healthStepDebtToEquity, specScoreDebtToEquity, specRatUsable]
  | some x =>
    by_cases h : x.isinf = false ∧ x.isnan = false <;>
      simp [healthStepDebtToEquity, specScoreDebtToEquity, specRatUsable, h]

theorem assess_financial_health_eq (ni cfo cr de : Option PFloat) :
    assess_financial_health ni cfo cr de =
      if ni = none ∧ cfo = none ∧ cr = none ∧ de = none then none
      else if healthFactorCount ni cfo cr de = 0 then none
      else some (if 2 ≤ healthScore ni cfo cr de then "Strong"
                 else if 0 ≤ healthScore ni cfo cr de then "Stable"
                 else "Concerning") := by
  unfold assess_financial_health
  rw [healthStepNetIncome_eq, healthStepCashFromOps_eq,
    healthStepCurrentRat_eq, healthStepDebtToEquity_eq]
  simp only [healthFactorCount, healthScore]
  split
  · rfl
  · norm_num [add_assoc]

/-- C3: the health assessment returns null when all four inputs are null
or when zero factors are usable (a ratio is usable only if non-null,
finite and not NaN; net income and cash from operations are counted
whenever non-null); otherwise it accumulates a score from 0 adding +1 for
netIncome > 0, +1 for cashFromOps > 0, +1 for currentRatio at least 1.5
and -1 for currentRatio below 1.0 (neutral between), +1 for debtToEquity
at most 1.0 and -1 for debtToEquity above 2.0 (neutral between), and
returns Strong if the score is at least 2, Stable if at least 0, else
Concerning. -/
theorem c3_health_assessment (ni cfo cr de : Option PFloat) :
    (healthFactorCount ni cfo cr de = 0 →
      assess_financial_health ni cfo cr de = none) ∧
    (healthFactorCount ni cfo cr de ≠ 0 →
      assess_financial_health ni cfo cr de =
        some (if 2 ≤ healthScore ni cfo cr de then "Strong"
              else if 0 ≤ healthScore ni cfo cr de then "Stable"
              else "Concerning")) := by
  rw [assess_financial_health_eq ni cfo cr de]
  constructor
  · intro h0
    by_cases hall : ni = none ∧ cfo = none ∧ cr = none ∧ de = none
    · rw [if_pos hall]
    · rw [if_neg hall, if_pos h0]
  · intro hne
    have hnotall : ¬(ni = none ∧ cfo = none ∧ cr = none ∧ de = none) := by
      rintro ⟨h1, h2, h3, h4⟩
      exact hne (by simp [healthFactorCount, h1, h2, h3, h4,
        specCountPresent, specRatUsable])
    rw [if_neg hnotall, if_neg hne]

/-- Witness for C3 at the spec's own test vectors: all factors strong
gives "Strong" (score 4), all factors weak gives "Concerning" (score -4),
and the all-null input has zero usable factors hence a null result. -/
theorem c3_health_assessment_witness :
    assess_financial_health (some (.fin 10)) (some (.fin 10))
      (some (.fin 2)) (some (.fin (1 / 2))) = some "Strong" ∧
    assess_financial_health (some (.fin (-10))) (some (.fin (-10)))
      (some (.fin (1 / 2))) (some (.fin 3)) = some "Concerning" ∧
    assess_financial_health none none none none = none := by
  refine ⟨?_, ?_, ?_⟩
  · rw [(c3_health_assessment _ _ _ _).2 (by
      norm_num [healthFactorCount, specCountPresent, specRatUsable,
        PFloat.isinf, PFloat.isnan])]
    norm_num [healthScore, specScorePositive, specScoreCurrentRat,
      specScoreDebtToEquity, PFloat.ltb, PFloat.leb, PFloat.isinf,
      PFloat.isnan]
  · rw [(c3_health_assessment _ _ _ _).2 (by
      norm_num [healthFactorCount, specCountPresent, specRatUsable,
        PFloat.isinf, PFloat.isnan])]
    norm_num [healthScore, specScorePositive, specScoreCurrentRat,
      specScoreDebtToEquity, PFloat.ltb, PFloat.leb, PFloat.isinf,
      PFloat.isnan]
  · exact (c3_health_assessment none none none none).1 (by
      norm_num [healthFactorCount, specCountPresent, specRatUsable])

/-- C4 counterexample: the claim asserts the profitability and liquidity
classifiers return the bare labels "High" and "Strong", but on net margin
0.25 the code returns "High Profitability" and on current ratio 3 it
returns "Strong Liquidity" (only the valuation labels match the claim). -/
theorem c4_counterexample :
    assess_profitability (some (1 / 4)) = some "High Profitability" ∧
    assess_profitability (some (1 / 4)) ≠ some "High" ∧
    assess_liquidity (some 3) = some "Strong Liquidity" ∧
    assess_liquidity (some 3) ≠ some "Strong" := by
  have h1 : assess_profitability (some (1 / 4)) = some "High Profitability" := by
    norm_num [assess_profitability]
  have h2 : assess_liquidity (some 3) = some "Strong Liquidity" := by
    norm_num [assess_liquidity]
  refine ⟨h1, ?_, h2, ?_⟩
  · rw [h1]; decide
  · rw [h2]; decide

/-- C4 amended: the three standalone classifiers return null on null
input and map their single metric by exactly the source thresholds to
these labels: price/earnings below 15 is "Potentially Undervalued", in
[15, 25] is "Fairly Valued", above 25 is "Potentially Overvalued"; net
margin at least 0.20 is "High Profitability", in [0.10, 0.20) is
"Moderate Profitability", in [0, 0.10) is "Low Profitability", below 0 is
"Unprofitable"; current ratio at least 2.0 is "Strong Liquidity", in
[1.0, 2.0) is "Adequate Liquidity", below 1.0 is "Weak Liquidity". -/
theorem c4_amended_classifiers :
    (assess_valuation none = none) ∧
    (∀ pe : ℚ, pe < 15 →
      assess_valuation (some pe) = some "Potentially Undervalued") ∧
    (∀ pe : ℚ, 15 ≤ pe → pe ≤ 25 →
      assess_valuation (some pe) = some "Fairly Valued") ∧
    (∀ pe : ℚ, 25 < pe →
      assess_valuation (some pe) = some "Potentially Overvalued") ∧
    (assess_profitability none = none) ∧
    (∀ m : ℚ, 0.20 ≤ m →
      assess_profitability (some m) = some "High Profitability") ∧
    (∀ m : ℚ, 0.10 ≤ m → m < 0.20 →
      assess_profitability (some m) = some "Moderate Profitability") ∧
    (∀ m : ℚ, 0 ≤ m → m < 0.10 →
      assess_profitability (some m) = some "Low Profitability") ∧
    (∀ m : ℚ, m < 0 → assess_profitability (some m) = some "Unprofitable") ∧
    (assess_liquidity none = none) ∧
    (∀ cr : ℚ, 2 ≤ cr → assess_liquidity (some cr) = some "Strong Liquidity") ∧
    (∀ cr : ℚ, 1 ≤ cr → cr < 2 →
      assess_liquidity (some cr) = some "Adequate Liquidity") ∧
    (∀ cr : ℚ, cr < 1 → assess_liquidity (some cr) = some "Weak Liquidity") := by
  refine ⟨rfl, fun pe h => ?_, fun pe h1 h2 => ?_, fun pe h => ?_,
    rfl, fun m h => ?_, fun m h1 h2 => ?_, fun m h1 h2 => ?_, fun m h => ?_,
    rfl, fun cr h => ?_, fun cr h1 h2 => ?_, fun cr h => ?_⟩
  · simp [assess_valuation, h]
  · rw [assess_valuation, if_neg (by linarith), if_pos ⟨h1, h2⟩]
  · rw [assess_valuation, if_neg (by linarith),
      if_neg (by rintro ⟨-, h2⟩; linarith), if_pos h]
  · rw [assess_profitability, if_pos h]
  · rw [assess_profitability, if_neg (by linarith), if_pos ⟨h1, h2⟩]
  · rw [assess_profitability, if_neg (by linarith),
      if_neg (by rintro ⟨h3, -⟩; linarith), if_pos ⟨h2, h1⟩]
  · rw [assess_profitability, if_neg (by linarith),
      if_neg (by rintro ⟨h3, -⟩; linarith),
      if_neg (by rintro ⟨-, h3⟩; linarith), if_pos h]
  · rw [assess_liquidity, if_pos h]
  · rw [assess_liquidity, if_neg (by linarith), if_pos ⟨h1, h2⟩]
  · rw [assess_liquidity, if_neg (by linarith),
      if_neg (by rintro ⟨h3, -⟩; linarith), if_pos h]

/-- Witness for the amended C4 at one concrete input per label. -/
theorem c4_amended_classifiers_witness :
    assess_valuation (some 10) = some "Potentially Undervalued" ∧
    assess_valuation (some 20) = some "Fairly Valued" ∧
    assess_valuation (some 30) = some "Potentially Overvalued" ∧
    assess_profitability (some (1 / 4)) = some "High Profitability" ∧
    assess_profitability (some (3 / 20)) = some "Moderate Profitability" ∧
    assess_profitability (some (1 / 20)) = some "Low Profitability" ∧
    assess_profitability (some (-1)) = some "Unprofitable" ∧
    assess_liquidity (some 3) = some "Strong Liquidity" ∧
    assess_liquidity (some (3 / 2)) = some "Adequate Liquidity" ∧
    assess_liquidity (some (1 / 2)) = some "Weak Liquidity" :=
  ⟨c4_amended_classifiers.2.1 10 (by norm_num),
   c4_amended_classifiers.2.2.1 20 (by norm_num) (by norm_num),
   c4_amended_classifiers.2.2.2.1 30 (by norm_num),
   c4_amended_classifiers.2.2.2.2.2.1 (1 / 4) (by norm_num),
   c4_amended_classifiers.2.2.2.2.2.2.1 (3 / 20) (by norm_num) (by norm_num),
   c4_amended_classifiers.2.2.2.2.2.2.2.1 (1 / 20) (by norm_num) (by norm_num),
   c4_amended_classifiers.2.2.2.2.2.2.2.2.1 (-1) (by norm_num),
   c4_amended_classifiers.2.2.2.2.2.2.2.2.2.2.1 3 (by norm_num),
   c4_amended_classifiers.2.2.2.2.2.2.2.2.2.2.2.1 (3 / 2) (by norm_num)
     (by norm_num),
   c4_amended_classifiers.2.2.2.2.2.2.2.2.2.2.2.2 (1 / 2) (by norm_num)⟩

/-- C6: concept resolution returns the first item whose concept matches a
candidate, trying candidates in priority order (an earlier candidate wins
even when a later candidate matches an item appearing earlier in document
order); it returns null when the item list is absent or nothing matches,
and a matched item whose value is not numeric yields a result with a null
value rather than an error. -/
theorem c6_concept_resolution :
    (∀ cs, resolveConcepts none cs = none) ∧
    (∀ items c cs, find_concept_value items c ≠ none →
      resolveConcepts items (c :: cs) = find_concept_value items c) ∧
    (∀ items c cs, find_concept_value items c = none →
      resolveConcepts items (c :: cs) = resolveConcepts items cs) ∧
    (∀ l c, (∀ item ∈ l, item.concept ≠ c) →
      find_concept_value (some l) c = none) ∧
    (∀ pre item post c, (∀ p ∈ pre, p.concept ≠ c) → item.concept = c →
      find_concept_value (some (pre ++ item :: post)) c =
        some ⟨item.label, coerceItemValue item.value, some item.unit⟩) ∧
    (∀ s, coerceItemValue (.str s) = none) ∧
    (coerceItemValue .null = none) ∧
    (∀ q, coerceItemValue (.num q) = some q) := by
  refine ⟨?_, ?_, ?_, ?_, ?_, fun s => rfl, rfl, fun q => rfl⟩
  · intro cs; induction cs with
    | nil => rfl
    | cons c cs ih => simp [resolveConcepts, find_concept_value, ih]
  · intro items c cs h
    cases hv : find_concept_value items c with
    | none => exact absurd hv h
    | some r => simp [resolveConcepts, hv]
  · intro items c cs h
    simp [resolveConcepts, h]
  · intro l c h
    induction l with
    | nil => rfl
    | cons item rest ih =>
      have hne : item.concept ≠ c := h item (List.mem_cons_self item rest)
      simp only [find_concept_value, find_concept_value_items, if_neg hne]
      exact ih fun p hp => h p (List.mem_cons_of_mem item hp)
  · intro pre item post c hpre hitem
    induction pre with
    | nil => simp [find_concept_value, find_concept_value_items, hitem]
    | cons p rest ih =>
      have hne : p.concept ≠ c := hpre p (List.mem_cons_self p rest)
      simp only [find_concept_value, List.cons_append,
        find_concept_value_items, if_neg hne]
      exact ih fun q hq => hpre q (List.mem_cons_of_mem p hq)

/-- Witness for C6: a document where the legacy revenue tag appears
before the preferred tag still resolves to the preferred tag; and a
matching item with a string value resolves to a null value. -/
theorem c6_concept_resolution_witness :
    resolveConcepts
      (some [⟨"us-gaap_SalesRevenueNet", "usd", "Net sales", .num 500⟩,
             ⟨"us-gaap_Revenues", "usd", "Revenues", .num 600⟩])
      ["us-gaap_Revenues", "us-gaap_SalesRevenueNet"] =
      some ⟨"Revenues", some 600, some "usd"⟩ ∧
    find_concept_value
      (some [⟨"us-gaap_Revenues", "usd", "Revenues", .str "n/a"⟩])
      "us-gaap_Revenues" = some ⟨"Revenues", none, some "usd"⟩ := by
  constructor
  · rw [c6_concept_resolution.2.1 _ "us-gaap_Revenues"
      ["us-gaap_SalesRevenueNet"] (by decide)]
    decide
  · have h := c6_concept_resolution.2.2.2.2.1 []
      ⟨"us-gaap_Revenues", "usd", "Revenues", .str "n/a"⟩ [] "us-gaap_Revenues"
      (by simp) rfl
    simpa using h

/-- Lexicographic less-or-equal on character sequences, Python's string
comparison by code points (the source compares fixed-width ISO date
strings). -/

theorem strLe_refl (s : List Char) : strLe s s = true := by
  induction s with
  | nil => rfl
  | cons a s ih => simp [strLe, ih]

theorem strLe_nil (s : List Char) : strLe [] s = true := rfl

theorem eq_nil_of_strLe_nil {s : List Char} (h : strLe s [] = true) : s = [] := by
  cases s with
  | nil => rfl
  | cons a t => simp [strLe] at h

theorem strLe_total (s t : List Char) : strLe s t = true ∨ strLe t s = true := by
  induction s generalizing t with
  | nil => exact Or.inl rfl
  | cons a s ih =>
    cases t with
    | nil => exact Or.inr rfl
    | cons b t =>
      rcases lt_trichotomy a b with h | h | h
      · left; simp [strLe, h]
      · subst h
        rcases ih t with h2 | h2
        · left; simp [strLe, lt_irrefl, h2]
        · right; simp [strLe, lt_irrefl, h2]
      · right; simp [strLe, h]

theorem strLe_of_not_strLe {s t : List Char} (h : strLe s t = false) :
    strLe t s = true := by
  rcases strLe_total s t with h2 | h2
  · rw [h] at h2; exact absurd h2 (by simp)
  · exact h2

theorem strLe_trans {s t u : List Char} (h1 : strLe s t = true)
    (h2 : strLe t u = true) : strLe s u = true := by
  induction s generalizing t u with
  | nil => rfl
  | cons a s ih =>
    cases t with
    | nil => simp [strLe] at h1
    | cons b t =>
      cases u with
      | nil => simp [strLe] at h2
      | cons c u =>
        simp only [strLe] at h1 h2 ⊢
        rcases lt_trichotomy a b with hab | rfl | hab
        · rcases lt_trichotomy b c with hbc | rfl | hbc
          · simp [lt_trans hab hbc]
          · simp [hab]
          · rw [if_neg (lt_asymm hbc), if_pos hbc] at h2
            exact absurd h2 (by simp)
        · rcases lt_trichotomy a c with hac | rfl | hac
          · simp [hac]
          · rw [if_neg (lt_irrefl a), if_neg (lt_irrefl a)] at h1 h2 ⊢
            exact ih h1 h2
          · rw [if_neg (lt_asymm hac), if_pos hac] at h2
            exact absurd h2 (by simp)
        · rw [if_neg (lt_asymm hab), if_pos hab] at h1
          exact absurd h1 (by simp)

theorem strLe_antisymm {s t : List Char} (h1 : strLe s t = true)
    (h2 : strLe t s = true) : s = t := by
  induction s generalizing t with
  | nil => exact (eq_nil_of_strLe_nil h2).symm
  | cons a s ih =>
    cases t with
    | nil => simp [strLe] at h1
    | cons b t =>
      simp only [strLe] at h1 h2
      rcases lt_trichotomy a b with hab | rfl | hab
      · rw [if_neg (lt_asymm hab), if_pos hab] at h2
        exact absurd h2 (by simp)
      · rw [if_neg (lt_irrefl a), if_neg (lt_irrefl a)] at h1 h2
        rw [ih h1 h2]
      · rw [if_neg (lt_asymm hab), if_pos hab] at h1
        exact absurd h1 (by simp)

/-- One insertion step of a stable descending sort by a string key: the
new element goes in front of the first element whose key is at most its
own, so it lands after all strictly greater keys and before equal ones. -/

theorem insertDescBy_perm (key : α → List Char) (a : α) (l : List α) :
    (insertDescBy key a l).Perm (a :: l) := by
  induction l with
  | nil => exact List.Perm.refl _
  | cons b t ih =>
    by_cases h : strLe (key b) (key a) = true
    · simp [insertDescBy, h]
    · rw [insertDescBy, if_neg h]
      exact (ih.cons b).trans (List.Perm.swap a b t)

theorem sortDescBy_perm (key : α → List Char) (l : List α) :
    (sortDescBy key l).Perm l := by
  induction l with
  | nil => exact List.Perm.refl _
  | cons a t ih => exact (insertDescBy_perm key a _).trans (ih.cons a)

theorem mem_insertDescBy {key : α → List Char} {a x : α} {l : List α} :
    x ∈ insertDescBy key a l ↔ x = a ∨ x ∈ l := by
  rw [(insertDescBy_perm key a l).mem_iff, List.mem_cons]

theorem pairwise_insertDescBy {key : α → List Char} {a : α} {l : List α}
    (h : l.Pairwise (fun x y => strLe (key y) (key x) = true)) :
    (insertDescBy key a l).Pairwise (fun x y => strLe (key y) (key x) = true) := by
  induction l with
  | nil => simp [insertDescBy]
  | cons b t ih =>
    rw [List.pairwise_cons] at h
    obtain ⟨hb, ht⟩ := h
    by_cases hcmp : strLe (key b) (key a) = true
    · rw [insertDescBy, if_pos hcmp]
      refine List.Pairwise.cons ?_ (List.Pairwise.cons hb ht)
      intro c hc
      rcases List.mem_cons.mp hc with rfl | hc
      · exact hcmp
      · exact strLe_trans (hb c hc) hcmp
    · rw [insertDescBy, if_neg hcmp]
      refine List.Pairwise.cons ?_ (ih ht)
      intro c hc
      rcases mem_insertDescBy.mp hc with rfl | hc
      · exact strLe_of_not_strLe (by simpa using hcmp)
      · exact hb c hc

theorem sortDescBy_pairwise (key : α → List Char) (l : List α) :
    (sortDescBy key l).Pairwise (fun x y => strLe (key y) (key x) = true) := by
  induction l with
  | nil => simp [sortDescBy]
  | cons a t ih => exact pairwise_insertDescBy ih

theorem filter_insertDescBy_eq {key : α → List Char} (a : α) (l : List α)
    (k : List Char) (ha : key a = k) :
    (insertDescBy key a l).filter (fun x => decide (key x = k)) =
      a :: l.filter (fun x => decide (key x = k)) := by
  induction l with
  | nil => simp [insertDescBy, List.filter, ha]
  | cons b t ih =>
    by_cases hcmp : strLe (key b) (key a) = true
    · rw [insertDescBy, if_pos hcmp]
      simp [List.filter, ha]
    · have hbk : key b ≠ k := by
        intro hbk
        exact hcmp (by rw [hbk, ha]; exact strLe_refl k)
      rw [insertDescBy, if_neg hcmp]
      simp only [List.filter_cons, decide_eq_true_eq, if_neg hbk, ih]

theorem filter_insertDescBy_ne {key : α → List Char} (a : α) (l : List α)
    (k : List Char) (ha : key a ≠ k) :
    (insertDescBy key a l).filter (fun x => decide (key x = k)) =
      l.filter (fun x => decide (key x = k)) := by
  induction l with
  | nil => simp [insertDescBy, List.filter, ha]
  | cons b t ih =>
    by_cases hcmp : strLe (key b) (key a) = true
    · rw [insertDescBy, if_pos hcmp]
      simp only [List.filter_cons, decide_eq_true_eq, if_neg ha]
    · rw [insertDescBy, if_neg hcmp]
      simp only [List.filter_cons, ih]

/-- Stability of the descending sort: for every key value, the sorted
sequence restricted to that key equals the input restricted to that key
(same elements in the same relative order). -/
theorem sortDescBy_filter_key (key : α → List Char) (l : List α)
    (k : List Char) :
    (sortDescBy key l).filter (fun x => decide (key x = k)) =
      l.filter (fun x => decide (key x = k)) := by
  induction l with
  | nil => rfl
  | cons a t ih =>
    by_cases ha : key a = k
    · rw [sortDescBy, filter_insertDescBy_eq a _ k ha, ih]
      simp [List.filter_cons, ha]
    · rw [sortDescBy, filter_insertDescBy_ne a _ k ha, ih]
      simp [List.filter_cons, ha]

/-- A descending-sorted list splits as the elements with a nonempty key
followed by the elements with the empty key: the empty string is the
minimum, so its holders form the suffix. -/
theorem pairwise_desc_empty_key_last {key : α → List Char} {l : List α}
    (h : l.Pairwise (fun x y => strLe (key y) (key x) = true)) :
    l = l.filter (fun x => decide (key x ≠ [])) ++
      l.filter (fun x => decide (key x = [])) := by
  induction l with
  | nil => rfl
  | cons a t ih =>
    rw [List.pairwise_cons] at h
    obtain ⟨ha, ht⟩ := h
    by_cases hk : key a = []
    · have hall : ∀ b ∈ t, key b = [] := by
        intro b hb
        have := ha b hb
        rw [hk] at this
        exact eq_nil_of_strLe_nil this
      have h1 : (a :: t).filter (fun x => decide (key x ≠ [])) = [] := by
        rw [List.filter_eq_nil_iff]
        intro b hb
        rcases List.mem_cons.mp hb with rfl | hb
        · simp [hk]
        · simp [hall b hb]
      have h2 : (a :: t).filter (fun x => decide (key x = [])) = a :: t := by
        rw [List.filter_eq_self]
        intro b hb
        rcases List.mem_cons.mp hb with rfl | hb
        · simp [hk]
        · simp [hall b hb]
      rw [h1, h2, List.nil_append]
    · rw [List.filter_cons_of_pos (by simp [hk]),
        List.filter_cons_of_neg (by simp [hk]), List.cons_append, ← ih ht]

/-- Embeds `FinancialReportDetails` (finnhub_schemas.py, lines 33-40):
the three optional statement sections. -/

theorem filing_sort_key_eq_nil_iff (f : FinancialFilingData) :
    filing_sort_key f = [] ↔ f.endDate = "" := by
  rw [filing_sort_key]
  by_cases h : f.endDate = ""
  · simp [h]
  · rw [if_pos h]
    constructor
    · intro hd; exact String.ext hd
    · intro hc; rw [hc]

/-- C5: the annual-filing selection keeps exactly the records with
quarter == 0, form == "10-K" and a present statement payload (the payload
field is required, hence always present and always truthy), sorts the
kept records by end date descending under string comparison, places
records with a missing (empty) end date last, and preserves the upstream
relative order of records whose end dates are equal. -/
theorem c5_annual_selection (data : List FinancialFilingData) :
    (annual_filings data).Perm (data.filter keep_annual) ∧
    (∀ f, f ∈ annual_filings data ↔
      f ∈ data ∧ (f.quarter = 0 ∧ f.form = "10-K" ∧ reportTruthy f.report = true)) ∧
    (annual_filings data).Pairwise
      (fun a b => strLe (filing_sort_key b) (filing_sort_key a) = true) ∧
    (∀ k, (annual_filings data).filter (fun f => decide (filing_sort_key f = k)) =
      (data.filter keep_annual).filter (fun f => decide (filing_sort_key f = k))) ∧
    (annual_filings data =
      (annual_filings data).filter (fun f => decide (filing_sort_key f ≠ [])) ++
        (annual_filings data).filter (fun f => decide (filing_sort_key f = []))) ∧
    (∀ f, filing_sort_key f = [] ↔ f.endDate = "") := by
  refine ⟨sortDescBy_perm _ _, ?_, sortDescBy_pairwise _ _,
    fun k => sortDescBy_filter_key _ _ k, ?_, filing_sort_key_eq_nil_iff⟩
  · intro f
    rw [annual_filings, (sortDescBy_perm filing_sort_key _).mem_iff,
      List.mem_filter]
    simp [keep_annual, reportTruthy]
  · exact pairwise_desc_empty_key_last
      (sortDescBy_pairwise filing_sort_key (data.filter keep_annual))

/-- Embeds the income-statement revenue extraction of the report loop
(financials.py, lines 117 and 128-133): None when the ic section is
absent or empty (both falsy in the line-128 guard), else the value of
the resolved revenue item (preferred tag us-gaap_Revenues, then
us-gaap_SalesRevenueNet), None when no item matched. -/

theorem calculate_growth_rate_none_prev (c : Option ℚ) :
    calculate_growth_rate c none = none := by
  cases c <;> rfl

/-- Embeds the growth-threading of the report-assembly loop
(financials.py, lines 107, 109, 225-226 and 260-261): iterate the
selected filings newest-first carrying the previous filing's revenue and
net income (a defaultdict starting at None), emit the two growth fields
for each filing, then overwrite the carried state with the current
filing's values. -/

theorem growth_loop_length (l : List FinancialFilingData)
    (pr pn : Option ℚ) : (growth_loop l pr pn).length = l.length := by
  induction l generalizing pr pn with
  | nil => rfl
  | cons f rest ih => simp [growth_loop, ih]

theorem growth_loop_head (f : FinancialFilingData)
    (rest : List FinancialFilingData) (pr pn : Option ℚ) :
    (growth_loop (f :: rest) pr pn)[0]? =
      some (calculate_growth_rate (extract_revenue f) pr,
        calculate_growth_rate (extract_net_income_ic f) pn) := by
  simp [growth_loop]

theorem growth_loop_idx (l : List FinancialFilingData) :
    ∀ (pr pn : Option ℚ) (i : ℕ) (f g : FinancialFilingData),
      l[i]? = some f → l[i + 1]? = some g →
      (growth_loop l pr pn)[i + 1]? =
        some (calculate_growth_rate (extract_revenue g) (extract_revenue f),
          calculate_growth_rate (extract_net_income_ic g)
            (extract_net_income_ic f)) := by
  induction l with
  | nil => intro pr pn i f g hf _; simp at hf
  | cons a rest ih =>
    intro pr pn i f g hf hg
    cases i with
    | zero =>
      rw [List.getElem?_cons_zero, Option.some_inj] at hf
      subst hf
      rw [List.getElem?_cons_succ] at hg
      cases rest with
      | nil => simp at hg
      | cons b rest2 =>
        rw [List.getElem?_cons_zero, Option.some_inj] at hg
        subst hg
        simp [growth_loop]
    | succ j =>
      rw [List.getElem?_cons_succ] at hf hg
      rw [growth_loop, List.getElem?_cons_succ]
      exact ih _ _ j f g hf hg

/-- C7: the report assembler iterates the selected filings newest-first
with a carried-forward previous-revenue and previous-net-income state
initialized to null, so the first (newest) filing's two growth fields are
null, every later filing's growth fields equal the growth function
applied with that filing's own values as current and the immediately
preceding (newer) filing's values as previous, and one growth pair is
emitted per filing. -/
theorem c7_growth_threading (filings : List FinancialFilingData) :
    ((report_growth_pairs filings).length = filings.length) ∧
    (∀ f rest, filings = f :: rest →
      (report_growth_pairs filings)[0]? = some (none, none)) ∧
    (∀ i f g, filings[i]? = some f → filings[i + 1]? = some g →
      (report_growth_pairs filings)[i + 1]? =
        some (calculate_growth_rate (extract_revenue g) (extract_revenue f),
          calculate_growth_rate (extract_net_income_ic g)
            (extract_net_income_ic f))) := by
  refine ⟨growth_loop_length filings none none, ?_, ?_⟩
  · intro f rest hf
    subst hf
    rw [report_growth_pairs, growth_loop_head,
      calculate_growth_rate_none_prev, calculate_growth_rate_none_prev]
  · intro i f g hf hg
    exact growth_loop_idx filings none none i f g hf hg

/-- C8: for every service fetch, a cache entry younger than 300 seconds
is returned as-is without invoking the fetch and without changing the
cache; otherwise the fetch is invoked, a successful fetch stores its
result under the key with the current timestamp and returns it, and a
failed fetch (handled invalid-symbol or re-raised error) writes nothing,
leaving the cache unchanged. -/
theorem c8_cache {V : Type} (cache : List (String × CacheEntry V))
    (now : ℚ) (key : String) (fetch : FetchOutcome V) :
    (CACHE_EXPIRATION_SECONDS = 300) ∧
    (∀ e, cacheLookup cache key = some e →
      now - e.timestamp < CACHE_EXPIRATION_SECONDS →
      getOrFetch cache now key fetch =
        ⟨.returns (some e.data), cache, false⟩) ∧
    (cacheLookup cache key = none →
      (getOrFetch cache now key fetch).fetchInvoked = true) ∧
    (∀ e, cacheLookup cache key = some e →
      ¬ now - e.timestamp < CACHE_EXPIRATION_SECONDS →
      (getOrFetch cache now key fetch).fetchInvoked = true) ∧
    (∀ v, fetch = .success v →
      (getOrFetch cache now key fetch).fetchInvoked = true →
      getOrFetch cache now key fetch =
        ⟨.returns (some v), cacheInsert cache key ⟨v, now⟩, true⟩) ∧
    (fetch = .invalidSymbol ∨ fetch = .raised →
      (getOrFetch cache now key fetch).cache = cache) := by
  refine ⟨rfl, ?_, ?_, ?_, ?_, ?_⟩
  · intro e he hage
    simp [getOrFetch, he, hage]
  · intro he
    simp only [getOrFetch, he]
    cases fetch <;> rfl
  · intro e he hage
    simp only [getOrFetch, he, if_neg hage]
    cases fetch <;> rfl
  · intro v hv hinv
    subst hv
    simp only [getOrFetch] at hinv ⊢
    cases he : cacheLookup cache key with
    | none => rfl
    | some e =>
      simp only [he] at hinv ⊢
      by_cases hage : now - e.timestamp < CACHE_EXPIRATION_SECONDS
      · rw [if_pos hage] at hinv; simp at hinv
      · rw [if_neg hage]; rfl
  · intro hfail
    simp only [getOrFetch]
    cases he : cacheLookup cache key with
    | none =>
      simp only [he]
      rcases hfail with rfl | rfl <;> rfl
    | some e =>
      simp only [he]
      by_cases hage : now - e.timestamp < CACHE_EXPIRATION_SECONDS
      · rw [if_pos hage]
      · rw [if_neg hage]
        rcases hfail with rfl | rfl <;> rfl

/-- Witness for C8 over rational payloads: a 100-second-old entry is a
hit with no fetch; at 400 seconds the entry is expired, a successful
fetch overwrites it with the new timestamp, and a raised fetch leaves
the cache unchanged. -/
theorem c8_cache_witness :
    getOrFetch [("k", (⟨7, 0⟩ : CacheEntry ℚ))] 100 "k" (.success 9) =
      ⟨.returns (some 7), [("k", ⟨7, 0⟩)], false⟩ ∧
    getOrFetch [("k", (⟨7, 0⟩ : CacheEntry ℚ))] 400 "k" (.success 9) =
      ⟨.returns (some 9), [("k", ⟨9, 400⟩)], true⟩ ∧
    (getOrFetch [("k", (⟨7, 0⟩ : CacheEntry ℚ))] 400 "k" .raised).cache =
      [("k", ⟨7, 0⟩)] := by
  have hlk : cacheLookup [("k", (⟨7, 0⟩ : CacheEntry ℚ))] "k" = some ⟨7, 0⟩ := by
    simp [cacheLookup]
  refine ⟨(c8_cache _ _ _ _).2.1 ⟨7, 0⟩ hlk (by norm_num [CACHE_EXPIRATION_SECONDS]), ?_, ?_⟩
  · have h := (c8_cache [("k", (⟨7, 0⟩ : CacheEntry ℚ))] 400 "k"
      (.success 9)).2.2.2.2.1 9 rfl
    have hinv := (c8_cache [("k", (⟨7, 0⟩ : CacheEntry ℚ))] 400 "k"
      (.success 9)).2.2.2.1 ⟨7, 0⟩ hlk (by norm_num [CACHE_EXPIRATION_SECONDS])
    rw [h hinv]
    simp [cacheInsert]
  · exact (c8_cache _ _ _ _).2.2.2.2.2 (Or.inr rfl)

/-- C9: for every upstream metrics payload, the output fields
revenue_growth_ttm_yoy and eps_growth_ttm_yoy are always null: the
handler passes the percentage-converted values under the names
revenue_growth_ttm_yoy_percent and eps_growth_ttm_yoy_percent, which the
output schema does not declare, so they are dropped at construction
while the declared fields keep their None default. -/
theorem c9_growth_fields_null (symbol : String) (m : FinnhubMetricData) :
    (build_key_metrics_out symbol m).revenue_growth_ttm_yoy = none ∧
    (build_key_metrics_out symbol m).eps_growth_ttm_yoy = none ∧
    (key_metrics_float_kwargs m).lookup "revenue_growth_ttm_yoy_percent" =
      some (m.revenueGrowthTTMYoy.map (fun x => x * 100)) ∧
    (key_metrics_float_kwargs m).lookup "eps_growth_ttm_yoy_percent" =
      some (m.epsGrowthTTMYoy.map (fun x => x * 100)) ∧
    (key_metrics_float_kwargs m).lookup "revenue_growth_ttm_yoy" = none ∧
    (key_metrics_float_kwargs m).lookup "eps_growth_ttm_yoy" = none := by
  refine ⟨?_, ?_, ?_, ?_, ?_, ?_⟩ <;>
    simp [build_key_metrics_out, pydanticFloatField,
      key_metrics_float_kwargs, List.lookup]

/-- C10: when the upstream company-profile fetch yields null (the
invalid-symbol case), the company-profile handler dereferences the null
result and raises an unhandled error (an AttributeError on .ticker),
instead of the deliberate 404 not-found signal the key-metrics and
financial-statements handlers produce for the same case. -/
theorem c10_profile_null_deref :
    get_company_profile_endpoint none =
      .pythonError "AttributeError" ∧
    get_company_profile_endpoint none ≠ (.httpError 404) ∧
    get_company_metrics_endpoint none = .httpError 404 ∧
    get_company_financials_endpoint none = .httpError 404 := by
  refine ⟨rfl, ?_, rfl, rfl⟩
  intro h
  simp [get_company_profile_endpoint] at h

/-- Witness for C5 on a concrete mixed sequence: only the 10-K annual
records survive, ordered by end date descending with the missing-date
record last; membership facts are drawn from the selection theorem. -/
theorem c5_annual_selection_witness :
    annual_filings sampleFilings =
      [sampleAnnual24, sampleAnnual23, sampleAnnualNoDate] ∧
    sampleAnnual24 ∈ annual_filings sampleFilings ∧
    sampleQuarterly ∉ annual_filings sampleFilings := by
  refine ⟨by decide, ?_, ?_⟩
  · exact ((c5_annual_selection sampleFilings).2.1 sampleAnnual24).mpr
      ⟨by decide, by decide, by decide, rfl⟩
  · intro h
    have hq := (((c5_annual_selection sampleFilings).2.1 sampleQuarterly).mp
      h).2.1
    exact absurd hq (by decide)

/-- Witness for C7 on a concrete two-filing report: the newest filing's
growth pair is null, the older filing's revenue growth is
((100 - 200) / 200) * 100 = -50 percent and its net-income growth is 0
percent. -/
theorem c7_growth_threading_witness :
    (report_growth_pairs [sampleGrowthNew, sampleGrowthOld]).length = 2 ∧
    (report_growth_pairs [sampleGrowthNew, sampleGrowthOld])[0]? =
      some (none, none) ∧
    (report_growth_pairs [sampleGrowthNew, sampleGrowthOld])[1]? =
      some (some (.fin (-50)), some (.fin 0)) := by
  refine ⟨?_, ?_, ?_⟩
  · rw [(c7_growth_threading [sampleGrowthNew, sampleGrowthOld]).1]
    rfl
  · exact (c7_growth_threading [sampleGrowthNew, sampleGrowthOld]).2.1
      sampleGrowthNew [sampleGrowthOld] rfl
  · have h := (c7_growth_threading [sampleGrowthNew, sampleGrowthOld]).2.2
      0 sampleGrowthNew sampleGrowthOld rfl rfl
    rw [h]
    have e1 : extract_revenue sampleGrowthNew = some 200 := by decide
    have e2 : extract_revenue sampleGrowthOld = some 100 := by decide
    have e3 : extract_net_income_ic sampleGrowthNew = some 50 := by decide
    have e4 : extract_net_income_ic sampleGrowthOld = some 50 := by decide
    rw [e1, e2, e3, e4]
    have g1 : calculate_growth_rate (some 100) (some 200) =
        some (.fin (-50)) := by
      rw [calculate_growth_rate]
      norm_num [pyRound, roundHalfToEven, ratFloor_eq_floor]
    have g2 : calculate_growth_rate (some 50) (some 50) =
        some (.fin 0) := by
      rw [calculate_growth_rate]
      norm_num [pyRound, roundHalfToEven, ratFloor_eq_floor]
    rw [g1, g2]

end FinSvc
